import Mathlib

/-!
Shallow embedding of the in-process coordination core of `src/script.js`
(ORBITAL): the event bus `ORBITAL.events` (`on` / `off` / `emit`), the state
store `ORBITAL.state` (`get` / `set` / `subscribe`) and the telemetry queue
`ORBITAL.modules.analytics` (`log` / `getQueue`).

Modelling conventions:
* JavaScript objects used as string-keyed dictionaries (`events`, `store`,
  `listeners`) become association lists `List (String × β)` with unique keys
  maintained by `setA`; a missing property (`undefined`, which is falsy) is
  `Option.none`.
* Handler and subscriber function references become opaque identifiers
  (`Nat`); reference equality `h !== handler` becomes `≠` on identifiers.
* `emit` uses `events[event].forEach(handler => handler(data))`.
  `Array.prototype.forEach` fixes both the array object and the range of
  indices it visits when the call starts; `off` never mutates that array in
  place (it rebinds `events[event]` to a fresh `filter` result) and `on` only
  appends (appended elements are outside the fixed range), so the handlers a
  dispatch pass visits are exactly the elements of the list bound to the topic
  at the moment `emit` was entered, in order.  The embedding therefore reads
  the topic's list once and folds over it, while each invoked handler may
  rewrite the registry for later `emit` calls.
* Handler side effects on the bus registry are captured by a behaviour
  function `b : Nat → α → Registry → Registry` (what the handler body does to
  the registry when invoked with the dispatched data); invocations themselves
  are recorded in an observation trace.
* Throwing handlers/subscribers (for the error-propagation analysis) are
  captured by a behaviour `b : Nat → α → Option ε` returning `some e` when
  the body throws `e`; dispatch stops at the first thrown error and the pair
  `(state reached, thrown error?)` is returned.
-/

/-- Lookup in a string-keyed association list: `m[k]`, with `none` for a
missing property (JS `undefined`). -/
def lookupA {β : Type} : List (String × β) → String → Option β
  | [], _ => none
  | (k', v') :: rest, k => if k' = k then some v' else lookupA rest k

/-- Property write `m[k] = v` on a string-keyed object: replaces the value of
an existing key, otherwise adds the key (JS objects keep one value per key;
insertion order of fresh keys is preserved). -/
def setA {β : Type} : List (String × β) → String → β → List (String × β)
  | [], k, v => [(k, v)]
  | (k', v') :: rest, k, v =>
    if k' = k then (k, v) :: rest else (k', v') :: setA rest k v

/-- The topic registry: the private `events` object of `ORBITAL.events`,
mapping event name to the ordered array of registered handlers. -/
abbrev Registry := List (String × List Nat)

/-- State of the event bus together with an observation trace of handler
invocations: `(h, d)` is appended each time handler `h` is called with
dispatched data `d`. -/
structure BusState (α : Type) where
  reg : Registry
  trace : List (Nat × α)
  deriving DecidableEq

namespace Events

/-- `function on(event, handler) { if (!events[event]) { events[event] = []; }
events[event].push(handler); }` -/
def on' (event : String) (handler : Nat) (r : Registry) : Registry :=
  match lookupA r event with
  | none => setA r event [handler]
  | some hs => setA r event (hs ++ [handler])

/-- `function off(event, handler) { if (!events[event]) return;
events[event] = events[event].filter(h => h !== handler); }` -/
def off (event : String) (handler : Nat) (r : Registry) : Registry :=
  match lookupA r event with
  | none => r
  | some hs => setA r event (hs.filter (fun h => h ≠ handler))

/-- `function emit(event, data) { if (!events[event]) return;
events[event].forEach(handler => handler(data)); }`

The fold runs over the handler list bound to `event` when `emit` is entered
(see the module comment for why this is exactly what `forEach` visits).  Each
step records the invocation `(handler, data)` and applies the handler body's
effect `b` on the registry. -/
def emit {α : Type} (b : Nat → α → Registry → Registry) (event : String)
    (data : α) (s : BusState α) : BusState α :=
  match lookupA s.reg event with
  | none => s
  | some hs =>
    hs.foldl (fun st h => ⟨b h data st.reg, st.trace ++ [(h, data)]⟩) s

/-- Fallible dispatch over a handler list: each handler is invoked in turn
(recorded in the trace); a handler whose body throws (`b h data = some e`)
makes the error escape `forEach` uncaught, so the remaining handlers are not
invoked.  Returns the state reached and the thrown error, if any. -/
def dispatchE {α ε : Type} (b : Nat → α → Option ε) (data : α) :
    List Nat → BusState α → BusState α × Option ε
  | [], s => (s, none)
  | h :: rest, s =>
    let s' : BusState α := ⟨s.reg, s.trace ++ [(h, data)]⟩
    match b h data with
    | some e => (s', some e)
    | none => dispatchE b data rest s'

/-- `emit` with possibly-throwing handlers: `forEach` contains no
`try`/`catch`, so the first thrown error propagates out of `emit`. -/
def emitE {α ε : Type} (b : Nat → α → Option ε) (event : String) (data : α)
    (s : BusState α) : BusState α × Option ε :=
  match lookupA s.reg event with
  | none => (s, none)
  | some hs => dispatchE b data hs s

end Events

/-- State of `ORBITAL.state` together with an observation trace of subscriber
invocations: `(fn, v)` is appended each time subscriber `fn` is called with
the newly written value `v`. -/
structure StoreState (α : Type) where
  store : List (String × α)
  listeners : List (String × List Nat)
  calls : List (Nat × α)
  deriving DecidableEq

namespace State

/-- `function get(key) { return store[key]; }` — `undefined` (the unset
sentinel) is `none`. -/
def get {α : Type} (key : String) (s : StoreState α) : Option α :=
  lookupA s.store key

/-- `function set(key, value) { store[key] = value; ...log...;
if (listeners[key]) { listeners[key].forEach(fn => fn(value)); } }`

The store is unconditionally overwritten, then every subscriber registered
for `key` is invoked in registration order with the new value.  (The source
writes `store[key]` before testing `listeners[key]`; since the write touches
only `store`, testing the unchanged `listeners` first is the same state
transformer, and both branches below perform the write.) -/
def set {α : Type} (key : String) (value : α) (s : StoreState α) :
    StoreState α :=
  match lookupA s.listeners key with
  | none => ⟨setA s.store key value, s.listeners, s.calls⟩
  | some fs =>
    ⟨setA s.store key value, s.listeners,
      s.calls ++ fs.map (fun f => (f, value))⟩

/-- `function subscribe(key, fn) { if (!listeners[key]) { listeners[key] = [];
} listeners[key].push(fn); }` — no subscriber is invoked here. -/
def subscribe {α : Type} (key : String) (fn : Nat) (s : StoreState α) :
    StoreState α :=
  match lookupA s.listeners key with
  | none => ⟨s.store, setA s.listeners key [fn], s.calls⟩
  | some fs => ⟨s.store, setA s.listeners key (fs ++ [fn]), s.calls⟩

/-- Fallible subscriber notification (the `listeners[key].forEach` loop of
`set` when subscriber bodies may throw): subscribers run in order, each
invocation is recorded, and the first thrown error escapes uncaught, skipping
the remaining subscribers. -/
def notifyE {α ε : Type} (b : Nat → α → Option ε) (value : α) :
    List Nat → StoreState α → StoreState α × Option ε
  | [], s => (s, none)
  | f :: rest, s =>
    let s' : StoreState α := ⟨s.store, s.listeners, s.calls ++ [(f, value)]⟩
    match b f value with
    | some e => (s', some e)
    | none => notifyE b value rest s'

/-- `set` with possibly-throwing subscribers: the write to `store[key]`
happens before the `forEach` loop, so it is never rolled back; the first
thrown error propagates out of `set`. -/
def setE {α ε : Type} (b : Nat → α → Option ε) (key : String) (value : α)
    (s : StoreState α) : StoreState α × Option ε :=
  match lookupA s.listeners key with
  | none => (⟨setA s.store key value, s.listeners, s.calls⟩, none)
  | some fs => notifyE b value fs ⟨setA s.store key value, s.listeners, s.calls⟩

end State

/-- A telemetry record, `ORBITAL.modules.analytics`'s
`{ type, payload, timestamp: Date.now(), url: location.pathname }`.  The
current instant and the page path come from the environment, so `log` below
takes them as inputs. -/
structure Rec (α : Type) where
  type : String
  payload : α
  timestamp : Nat
  url : String
  deriving DecidableEq

namespace Analytics

/-- `const MAX_QUEUE = 50;` -/
def MAX_QUEUE : Nat := 50

/-- `function log(type, payload = {}) { const event = { type, payload,
timestamp: Date.now(), url: location.pathname }; queue.push(event);
if (queue.length > MAX_QUEUE) { queue.shift(); } ... }`

`push` appends at the tail and `shift` removes the head. -/
def log {α : Type} (type : String) (payload : α) (timestamp : Nat)
    (url : String) (q : List (Rec α)) : List (Rec α) :=
  let q' := q ++ [⟨type, payload, timestamp, url⟩]
  if q'.length > MAX_QUEUE then q'.tail else q'

/-- Run a sequence of `log` calls (given as prebuilt records, oldest first)
against a queue; `const queue = []` starts the module with the empty queue. -/
def logAll {α : Type} (rs : List (Rec α)) (q : List (Rec α)) : List (Rec α) :=
  rs.foldl (fun acc r => log r.type r.payload r.timestamp r.url acc) q

/-!
For `getQueue` the claim of interest is about aliasing (`return [...queue];`
hands out a fresh array), so the analytics module state is also given as a
tiny heap of array objects: array references are indices into the heap, the
module's private `queue` array is the object at `queueRef` (allocated at
module initialisation by `const queue = []`), and `[...q]` allocates a fresh
array with the same elements.
-/

/-- The heap of array objects reachable from the analytics module. -/
abbrev Heap (α : Type) := List (List (Rec α))

/-- The reference to the module's private `queue` array, the first object
allocated by the module. -/
def queueRef : Nat := 0

/-- Read the array object behind a reference. -/
def heapGet {α : Type} (h : Heap α) (r : Nat) : List (Rec α) :=
  (h.get? r).getD []

/-- In-place mutation of the array object behind a reference (covers `push`,
`shift`, `splice`, reordering — any rewrite of the array's contents). -/
def heapSet {α : Type} (h : Heap α) (r : Nat) (v : List (Rec α)) : Heap α :=
  h.set r v

/-- `function getQueue() { return [...queue]; }` — reads the private queue
and returns a freshly allocated array holding the same elements, together
with the extended heap. -/
def getQueue {α : Type} (h : Heap α) : Heap α × Nat :=
  (h ++ [heapGet h queueRef], h.length)

end Analytics

/-- The module-initial state of `ORBITAL.state`: `const store = {};
const listeners = {};` and no subscriber invocation observed yet. -/
def initState {α : Type} : StoreState α := ⟨[], [], []⟩

/-- A dispatch environment in which no handler body touches the bus
registry. -/
def inert {α : Type} : Nat → α → Registry → Registry := fun _ _ r => r

/-! ### Association-list lemmas -/

theorem lookupA_setA_self {β : Type} (m : List (String × β)) (k : String)
    (v : β) : lookupA (setA m k v) k = some v := by
  induction m with
  | nil => simp [setA, lookupA]
  | cons p rest ih =>
    obtain ⟨k', v'⟩ := p
    by_cases h : k' = k
    · simp [setA, h, lookupA]
    · simp [setA, h, lookupA, ih]

theorem lookupA_setA_ne {β : Type} (m : List (String × β)) (k k' : String)
    (v : β) (h : k' ≠ k) : lookupA (setA m k v) k' = lookupA m k' := by
  have hk' : ¬ (k = k') := fun hh => h hh.symm
  induction m with
  | nil => simp [setA, lookupA, hk']
  | cons p rest ih =>
    obtain ⟨k₀, v₀⟩ := p
    by_cases hk : k₀ = k
    · subst hk
      simp [setA, lookupA, hk']
    · simp [setA, hk, lookupA, ih]

theorem setA_setA {β : Type} (m : List (String × β)) (k : String)
    (v w : β) : setA (setA m k v) k w = setA m k w := by
  induction m with
  | nil => simp [setA]
  | cons p rest ih =>
    obtain ⟨k₀, v₀⟩ := p
    by_cases hk : k₀ = k
    · simp [setA, hk]
    · simp [setA, hk, ih]

theorem setA_eq_of_lookupA {β : Type} (m : List (String × β)) (k : String)
    (v : β) (h : lookupA m k = some v) : setA m k v = m := by
  induction m with
  | nil => simp [lookupA] at h
  | cons p rest ih =>
    obtain ⟨k₀, v₀⟩ := p
    by_cases hk : k₀ = k
    · subst hk
      simp [lookupA] at h
      simp [setA, h]
    · simp [lookupA, hk] at h
      simp [setA, hk, ih h]

/-! ### Dispatch-fold lemmas -/

theorem emit_foldl_trace {α : Type} (b : Nat → α → Registry → Registry)
    (d : α) (hs : List Nat) (st : BusState α) :
    (hs.foldl (fun st h => ⟨b h d st.reg, st.trace ++ [(h, d)]⟩) st).trace
      = st.trace ++ hs.map (fun h => (h, d)) := by
  induction hs generalizing st with
  | nil => simp
  | cons h rest ih => simp [ih]

theorem emit_foldl_reg_of_inert {α : Type}
    (b : Nat → α → Registry → Registry) (d : α) (hs : List Nat)
    (st : BusState α) (hb : ∀ h ∈ hs, ∀ r, b h d r = r) :
    (hs.foldl (fun st h => ⟨b h d st.reg, st.trace ++ [(h, d)]⟩) st).reg
      = st.reg := by
  induction hs generalizing st with
  | nil => rfl
  | cons h rest ih =>
    rw [List.foldl_cons, ih _ (fun x hx r => hb x (List.mem_cons_of_mem _ hx) r)]
    exact hb h (List.mem_cons_self ..) _

/-- Counting a pair `(f, v)` in the invocation segment produced by notifying
a subscriber list with value `v` counts the occurrences of `f`. -/
theorem count_pair_map {α : Type} [DecidableEq α] (fs : List Nat) (f : Nat)
    (v : α) : ((fs.map fun g => (g, v)).count (f, v)) = fs.count f := by
  induction fs with
  | nil => rfl
  | cons g rest ih =>
    by_cases hgf : g = f
    · subst hgf
      simp [List.count_cons, ih]
    · simp [List.count_cons, ih, hgf]

/-! ### C3: publish dispatches in registration order, missing topic no-op -/

/-- C3: for handlers `h1..hn` registered for topic `t` before `publish(t, d)`
(the list bound to `t` in the registry), the dispatch pass invokes exactly
those handlers, in registration order, each with the single argument `d`
(the appended trace is the registration list paired with `d`); `publish` on
a topic with no registered handlers (missing key, or a topic whose handler
array is empty) leaves the state unchanged — a silent no-op, not an error. -/
theorem C3_publish_order {α : Type} (b : Nat → α → Registry → Registry)
    (t : String) (d : α) (s : BusState α) :
    (Events.emit b t d s).trace
        = s.trace ++ ((lookupA s.reg t).getD []).map (fun h => (h, d))
      ∧ (lookupA s.reg t = none → Events.emit b t d s = s)
      ∧ (lookupA s.reg t = some [] → Events.emit b t d s = s) := by
  refine ⟨?_, ?_, ?_⟩
  · unfold Events.emit
    cases hl : lookupA s.reg t with
    | none => simp
    | some hs => simp [emit_foldl_trace]
  · intro h
    unfold Events.emit
    rw [h]
  · intro h
    unfold Events.emit
    rw [h]
    rfl

/-- Witness for C3 at concrete inputs: publishing on the unknown topic `"y"`
of a one-topic registry is a no-op, and publishing `5` on `"x"` with
handlers `[1, 2]` invokes `1` then `2`, each with `5`. -/
theorem C3_publish_order_witness :
    Events.emit (@inert Nat) "y" 0 ⟨[("x", [1, 2])], []⟩ = ⟨[("x", [1, 2])], []⟩
    ∧ (Events.emit (@inert Nat) "x" 5 ⟨[("x", [1, 2])], []⟩).trace
        = [(1, 5), (2, 5)] := by
  constructor
  · exact (C3_publish_order (@inert Nat) "y" 0 ⟨[("x", [1, 2])], []⟩).2.1 (by decide)
  · have h := (C3_publish_order (@inert Nat) "x" 5 ⟨[("x", [1, 2])], []⟩).1
    simpa using h

/-! ### C4: get before set is the unset sentinel; get after set is the value -/

/-- C4: `get(k)` on the initial store (before any `set(k, _)`) returns the
unset sentinel (`undefined`, modelled `none`) rather than raising, and for
every key `k`, value `v` and store state `s`, `get(k)` immediately after
`set(k, v)` returns `v`. -/
theorem C4_get_after_set {α : Type} (k : String) (v : α) (s : StoreState α) :
    State.get k (@initState α) = none
    ∧ State.get k (State.set k v s) = some v := by
  constructor
  · rfl
  · unfold State.set State.get
    cases hl : lookupA s.listeners k with
    | none => exact lookupA_setA_self s.store k v
    | some fs => exact lookupA_setA_self s.store k v

/-! ### State-store lemmas -/

theorem set_listeners {α : Type} (k : String) (v : α) (s : StoreState α) :
    (State.set k v s).listeners = s.listeners := by
  unfold State.set
  cases hl : lookupA s.listeners k <;> rfl

theorem set_calls {α : Type} (k : String) (v : α) (s : StoreState α) :
    (State.set k v s).calls
      = s.calls ++ ((lookupA s.listeners k).getD []).map (fun f => (f, v)) := by
  unfold State.set
  cases hl : lookupA s.listeners k with
  | none => simp
  | some fs => rfl

theorem subscribe_store {α : Type} (k : String) (fn : Nat)
    (s : StoreState α) : (State.subscribe k fn s).store = s.store := by
  unfold State.subscribe
  cases hl : lookupA s.listeners k <;> rfl

theorem subscribe_calls {α : Type} (k : String) (fn : Nat)
    (s : StoreState α) : (State.subscribe k fn s).calls = s.calls := by
  unfold State.subscribe
  cases hl : lookupA s.listeners k <;> rfl

theorem subscribe_listeners {α : Type} (k : String) (fn : Nat)
    (s : StoreState α) :
    lookupA (State.subscribe k fn s).listeners k
      = some (((lookupA s.listeners k).getD []) ++ [fn]) := by
  unfold State.subscribe
  cases hl : lookupA s.listeners k with
  | none => simpa using lookupA_setA_self s.listeners k [fn]
  | some fs => simpa using lookupA_setA_self s.listeners k (fs ++ [fn])

/-! ### C7: no equality suppression -/

/-- C7: two consecutive `set(k, v)` calls with the same value each notify the
full subscriber list of `k` — the invocation trace grows by the subscriber
list (paired with `v`) twice, once per `set` call, and in particular every
subscriber occurring once in `k`'s list is invoked exactly twice.  No
equality check against the stored value suppresses the second notification. -/
theorem C7_no_equality_suppression {α : Type} [DecidableEq α] (k : String)
    (v : α) (s : StoreState α) :
    (State.set k v (State.set k v s)).calls
      = s.calls ++ ((lookupA s.listeners k).getD []).map (fun f => (f, v))
                ++ ((lookupA s.listeners k).getD []).map (fun f => (f, v))
    ∧ ∀ f : Nat,
        ((State.set k v (State.set k v s)).calls.count (f, v))
          = s.calls.count (f, v)
            + 2 * ((lookupA s.listeners k).getD []).count f := by
  have hcalls : (State.set k v (State.set k v s)).calls
      = s.calls ++ ((lookupA s.listeners k).getD []).map (fun f => (f, v))
                ++ ((lookupA s.listeners k).getD []).map (fun f => (f, v)) := by
    rw [set_calls, set_calls, set_listeners]
  refine ⟨hcalls, fun f => ?_⟩
  rw [hcalls]
  simp [List.count_append, count_pair_map]
  omega

/-! ### C8: subscribe never fires immediately; the next set fires once -/

/-- C8: `subscribe(k, fn)` leaves the invocation trace untouched (no
subscriber runs at subscribe time, whatever is already stored under `k`),
and a single `set(k, v)` performed right after the subscription appends the
extended subscriber list's invocations, in which — for a subscriber `fn`
not previously registered for `k` — the invocation `(fn, v)` occurs exactly
once. -/
theorem C8_subscribe_then_set {α : Type} [DecidableEq α] (k : String)
    (fn : Nat) (v : α) (s : StoreState α)
    (hfresh : fn ∉ (lookupA s.listeners k).getD []) :
    (State.subscribe k fn s).calls = s.calls
    ∧ (State.set k v (State.subscribe k fn s)).calls
        = s.calls ++ ((((lookupA s.listeners k).getD []) ++ [fn]).map
            (fun f => (f, v)))
    ∧ (((((lookupA s.listeners k).getD []) ++ [fn]).map
          (fun f => (f, v))).count (fn, v)) = 1 := by
  refine ⟨subscribe_calls k fn s, ?_, ?_⟩
  · rw [set_calls, subscribe_listeners, subscribe_calls]
    rfl
  · rw [List.map_append, List.count_append, count_pair_map]
    have h0 : (((lookupA s.listeners k).getD []).count fn) = 0 :=
      List.count_eq_zero.mpr hfresh
    simp [h0]

/-- Witness for C8 at concrete inputs: from the initial store, subscribing
subscriber `1` to `"theme"` fires nothing, and a following
`set("theme", "dark")` fires `1` with `"dark"` exactly once. -/
theorem C8_subscribe_then_set_witness :
    (State.subscribe "theme" 1 (@initState String)).calls = []
    ∧ (State.set "theme" "dark"
        (State.subscribe "theme" 1 (@initState String))).calls
        = [(1, "dark")] := by
  have h := C8_subscribe_then_set "theme" 1 "dark" (@initState String)
      (by decide)
  exact ⟨h.1, by simpa using h.2.1⟩

/-! ### C9: unregister removes all occurrences, keeps the rest in order -/

/-- C9: `unregister(t, h)` removes every occurrence of `h` (duplicates
included) from `t`'s handler sequence while the remaining handlers keep
their relative order (the sequence becomes exactly the `≠ h` filter of the
old one); other topics are untouched; the call is a no-op when the topic has
no registrations or when `h` is not present; and a subsequent
`publish(t, ...)` never invokes `h`. -/
theorem C9_unregister {α : Type} (t t' : String) (h : Nat) (r : Registry)
    (d : α) :
    (∀ hs, lookupA r t = some hs →
        lookupA (Events.off t h r) t = some (hs.filter (fun x => x ≠ h)))
    ∧ (t' ≠ t → lookupA (Events.off t h r) t' = lookupA r t')
    ∧ (lookupA r t = none → Events.off t h r = r)
    ∧ (∀ hs, lookupA r t = some hs → h ∉ hs → Events.off t h r = r)
    ∧ (∀ p ∈ (Events.emit (@inert α) t d ⟨Events.off t h r, []⟩).trace,
         p.1 ≠ h) := by
  refine ⟨?_, ?_, ?_, ?_, ?_⟩
  · intro hs hl
    unfold Events.off
    rw [hl]
    exact lookupA_setA_self r t _
  · intro ht
    unfold Events.off
    cases hl : lookupA r t with
    | none => rfl
    | some hs => exact lookupA_setA_ne r t t' _ ht
  · intro hl
    unfold Events.off
    rw [hl]
  · intro hs hl hmem
    have hfil : hs.filter (fun x => x ≠ h) = hs :=
      List.filter_eq_self.mpr (fun a ha => by
        simp
        exact fun hah => hmem (hah ▸ ha))
    unfold Events.off
    rw [hl]
    show setA r t (hs.filter (fun x => x ≠ h)) = r
    rw [hfil]
    exact setA_eq_of_lookupA r t hs hl
  · intro p hp
    cases hl0 : lookupA r t with
    | none =>
      have hoff : Events.off t h r = r := by
        unfold Events.off
        rw [hl0]
      rw [hoff] at hp
      unfold Events.emit at hp
      rw [hl0] at hp
      simp at hp
    | some hs =>
      have hoff : lookupA (Events.off t h r) t
          = some (hs.filter (fun x => x ≠ h)) := by
        unfold Events.off
        rw [hl0]
        exact lookupA_setA_self r t _
      unfold Events.emit at hp
      rw [hoff] at hp
      rw [emit_foldl_trace] at hp
      simp at hp
      obtain ⟨x, hx, hxp⟩ := hp
      have hx' : ¬ (x = h) := by simpa using hx.2
      rw [← hxp]
      simpa using hx'

/-- Witness for C9 at concrete inputs: removing handler `1` from a topic
where it occurs twice leaves the other handlers in order; removing it from a
topic that does not list it, and from an absent topic, are no-ops; and a
publish after the removal invokes no occurrence of `1`. -/
theorem C9_unregister_witness :
    lookupA (Events.off "x" 1 [("x", [2, 1, 3, 1])]) "x" = some [2, 3]
    ∧ Events.off "x" 1 [("x", [2])] = [("x", [2])]
    ∧ Events.off "y" 1 ([] : Registry) = []
    ∧ ∀ p ∈ (Events.emit (@inert Nat) "x" 7
          ⟨Events.off "x" 1 [("x", [2, 1, 3, 1])], []⟩).trace, p.1 ≠ 1 := by
  refine ⟨?_, ?_, ?_, ?_⟩
  · have := (C9_unregister "x" "x" 1 [("x", [2, 1, 3, 1])] (0 : Nat)).1
      [2, 1, 3, 1] rfl
    simpa using this
  · exact (C9_unregister "x" "x" 1 [("x", [2])] (0 : Nat)).2.2.2.1
      [2] rfl (by decide)
  · exact (C9_unregister "y" "y" 1 ([] : Registry) (0 : Nat)).2.2.1 rfl
  · exact (C9_unregister "x" "x" 1 [("x", [2, 1, 3, 1])] (7 : Nat)).2.2.2.2

/-! ### C5: errors propagate, dispatch stops, the write is not rolled back -/

theorem dispatchE_first_error {α ε : Type} (b : Nat → α → Option ε) (d : α)
    (pre : List Nat) (f : Nat) (post : List Nat) (e : ε)
    (hpre : ∀ g ∈ pre, b g d = none) (hf : b f d = some e)
    (s : BusState α) :
    Events.dispatchE b d (pre ++ f :: post) s
      = (⟨s.reg, s.trace ++ pre.map (fun g => (g, d)) ++ [(f, d)]⟩, some e) := by
  induction pre generalizing s with
  | nil => simp [Events.dispatchE, hf]
  | cons g pre ih =>
    have hg : b g d = none := hpre g (List.mem_cons_self ..)
    rw [List.cons_append]
    unfold Events.dispatchE
    rw [hg]
    show Events.dispatchE b d (pre ++ f :: post) ⟨s.reg, s.trace ++ [(g, d)]⟩
      = _
    rw [ih (fun x hx => hpre x (List.mem_cons_of_mem _ hx))]
    simp

theorem notifyE_first_error {α ε : Type} (b : Nat → α → Option ε) (v : α)
    (pre : List Nat) (f : Nat) (post : List Nat) (e : ε)
    (hpre : ∀ g ∈ pre, b g v = none) (hf : b f v = some e)
    (s : StoreState α) :
    State.notifyE b v (pre ++ f :: post) s
      = (⟨s.store, s.listeners,
          s.calls ++ pre.map (fun g => (g, v)) ++ [(f, v)]⟩, some e) := by
  induction pre generalizing s with
  | nil => simp [State.notifyE, hf]
  | cons g pre ih =>
    have hg : b g v = none := hpre g (List.mem_cons_self ..)
    rw [List.cons_append]
    unfold State.notifyE
    rw [hg]
    show State.notifyE b v (pre ++ f :: post)
        ⟨s.store, s.listeners, s.calls ++ [(g, v)]⟩ = _
    rw [ih (fun x hx => hpre x (List.mem_cons_of_mem _ hx))]
    simp

/-- C5: dispatch is not error-isolated.  If topic `t`'s handler sequence is
`pre ++ f :: post` and `f` is the first handler to throw `e`, then
`publish(t, d)` invokes exactly `pre` and `f` (the handlers after `f` are
not invoked) and the error `e` propagates out of `publish`.  Likewise for
`set(k, v)` with subscriber sequence `pre' ++ f' :: post'` and first thrower
`f'`; moreover the store entry for `k` is overwritten with `v` before the
subscribers run, so `get(k)` still returns `v` after the failed `set`. -/
theorem C5_error_propagation {α ε : Type}
    (t : String) (d : α) (s : BusState α) (b : Nat → α → Option ε)
    (pre post : List Nat) (f : Nat) (e : ε)
    (hreg : lookupA s.reg t = some (pre ++ f :: post))
    (hpre : ∀ g ∈ pre, b g d = none) (hf : b f d = some e)
    (k : String) (v : α) (st : StoreState α) (b' : Nat → α → Option ε)
    (pre' post' : List Nat) (f' : Nat) (e' : ε)
    (hls : lookupA st.listeners k = some (pre' ++ f' :: post'))
    (hpre' : ∀ g ∈ pre', b' g v = none) (hf' : b' f' v = some e') :
    Events.emitE b t d s
      = (⟨s.reg, s.trace ++ pre.map (fun g => (g, d)) ++ [(f, d)]⟩, some e)
    ∧ State.setE b' k v st
      = (⟨setA st.store k v, st.listeners,
          st.calls ++ pre'.map (fun g => (g, v)) ++ [(f', v)]⟩, some e')
    ∧ State.get k (State.setE b' k v st).1 = some v := by
  have hbus : Events.emitE b t d s
      = (⟨s.reg, s.trace ++ pre.map (fun g => (g, d)) ++ [(f, d)]⟩, some e) := by
    unfold Events.emitE
    rw [hreg]
    exact dispatchE_first_error b d pre f post e hpre hf s
  have hstore : State.setE b' k v st
      = (⟨setA st.store k v, st.listeners,
          st.calls ++ pre'.map (fun g => (g, v)) ++ [(f', v)]⟩, some e') := by
    unfold State.setE
    rw [hls]
    exact notifyE_first_error b' v pre' f' post' e' hpre' hf'
      ⟨setA st.store k v, st.listeners, st.calls⟩
  refine ⟨hbus, hstore, ?_⟩
  rw [hstore]
  exact lookupA_setA_self st.store k v

/-- A concrete throwing environment for the C5 witness: handler `2` throws
error `0`, everyone else returns normally. -/
def c5b : Nat → Nat → Option Nat := fun h _ =>
  if h = 2 then some 0 else none

/-- Witness for C5 at concrete inputs: on topic `"x"` with handlers
`[1, 2, 3]` where `2` is the first thrower, `publish` invokes `1` and `2`
only and rethrows; on key `"k"` with subscribers `[1, 2, 3]`, `set` writes
first, invokes `1` and `2` only, rethrows, and `get "k"` still reads the
written value. -/
theorem C5_error_propagation_witness :
    Events.emitE c5b "x" 7 ⟨[("x", [1, 2, 3])], []⟩
      = (⟨[("x", [1, 2, 3])], [(1, 7), (2, 7)]⟩, some 0)
    ∧ State.setE c5b "k" 7 (⟨[], [("k", [1, 2, 3])], []⟩ : StoreState Nat)
      = (⟨[("k", 7)], [("k", [1, 2, 3])], [(1, 7), (2, 7)]⟩, some 0)
    ∧ State.get "k"
        (State.setE c5b "k" 7
          (⟨[], [("k", [1, 2, 3])], []⟩ : StoreState Nat)).1 = some 7 := by
  have h := C5_error_propagation "x" 7 ⟨[("x", [1, 2, 3])], []⟩ c5b
    [1] [3] 2 0 rfl
    (by
      intro g hg
      rcases List.mem_singleton.mp hg with rfl
      rfl)
    rfl
    "k" 7 (⟨[], [("k", [1, 2, 3])], []⟩ : StoreState Nat) c5b
    [1] [3] 2 0 rfl
    (by
      intro g hg
      rcases List.mem_singleton.mp hg with rfl
      rfl)
    rfl
  exact ⟨by simpa using h.1, by simpa using h.2.1, by simpa using h.2.2⟩

/-! ### C10: getQueue hands out an independent copy -/

/-- C10: `snapshot()` (`getQueue`) returns a fresh array — a reference
distinct from the module's private `queue` — holding the queue's current
contents in order; rewriting the returned array's contents arbitrarily
(adding, removing or reordering elements) leaves the internal queue object
unchanged, and a later `snapshot()` still returns the original contents. -/
theorem C10_snapshot_independent {α : Type} (h : Analytics.Heap α)
    (f : List (Rec α) → List (Rec α)) (hq : 0 < h.length)
    (h1 : Analytics.Heap α) (r : Nat) (h2 : Analytics.Heap α)
    (hgq : Analytics.getQueue h = (h1, r))
    (hmut : h2 = Analytics.heapSet h1 r (f (Analytics.heapGet h1 r))) :
    r ≠ Analytics.queueRef
    ∧ Analytics.heapGet h1 r = Analytics.heapGet h Analytics.queueRef
    ∧ Analytics.heapGet h2 Analytics.queueRef
        = Analytics.heapGet h Analytics.queueRef
    ∧ Analytics.heapGet (Analytics.getQueue h2).1 (Analytics.getQueue h2).2
        = Analytics.heapGet h Analytics.queueRef := by
  have hh1 : h1 = h ++ [Analytics.heapGet h Analytics.queueRef] := by
    have := congrArg Prod.fst hgq
    simpa [Analytics.getQueue] using this.symm
  have hr : r = h.length := by
    have := congrArg Prod.snd hgq
    simpa [Analytics.getQueue] using this.symm
  have hrne : r ≠ Analytics.queueRef := by
    rw [hr]
    unfold Analytics.queueRef
    omega
  have hread : Analytics.heapGet h1 r
      = Analytics.heapGet h Analytics.queueRef := by
    rw [hh1, hr]
    unfold Analytics.heapGet
    rw [List.get?_eq_getElem?, List.getElem?_concat_length]
    rfl
  have hint : Analytics.heapGet h2 Analytics.queueRef
      = Analytics.heapGet h Analytics.queueRef := by
    rw [hmut]
    unfold Analytics.heapSet Analytics.heapGet
    rw [List.get?_eq_getElem?, List.getElem?_set_ne (fun hc => hrne hc)]
    rw [hh1, List.getElem?_append_left]
    · rw [← List.get?_eq_getElem?]
    · unfold Analytics.queueRef
      omega
  refine ⟨hrne, hread, hint, ?_⟩
  unfold Analytics.getQueue
  show Analytics.heapGet
      (h2 ++ [Analytics.heapGet h2 Analytics.queueRef]) h2.length
    = Analytics.heapGet h Analytics.queueRef
  unfold Analytics.heapGet
  rw [List.get?_eq_getElem?, List.getElem?_concat_length]
  show Analytics.heapGet h2 Analytics.queueRef
    = Analytics.heapGet h Analytics.queueRef
  exact hint

/-- Witness for C10 at concrete inputs: a heap whose internal queue holds
one record; the snapshot comes back at the fresh reference `1`, prepending a
record to the snapshot array leaves the internal queue unchanged, and a
later snapshot still returns the original record. -/
theorem C10_snapshot_independent_witness :
    (1 : Nat) ≠ Analytics.queueRef
    ∧ Analytics.heapGet
        (Analytics.heapSet [[(⟨"t1", 0, 0, "/"⟩ : Rec Nat)], [⟨"t1", 0, 0, "/"⟩]] 1
          ((⟨"t2", 1, 1, "/"⟩ : Rec Nat) :: [⟨"t1", 0, 0, "/"⟩]))
        Analytics.queueRef = [⟨"t1", 0, 0, "/"⟩] := by
  have h := C10_snapshot_independent [[(⟨"t1", 0, 0, "/"⟩ : Rec Nat)]]
    (fun q => (⟨"t2", 1, 1, "/"⟩ : Rec Nat) :: q) (by decide)
    [[⟨"t1", 0, 0, "/"⟩], [⟨"t1", 0, 0, "/"⟩]] 1
    (Analytics.heapSet [[⟨"t1", 0, 0, "/"⟩], [⟨"t1", 0, 0, "/"⟩]] 1
      ((⟨"t2", 1, 1, "/"⟩ : Rec Nat)
        :: Analytics.heapGet [[⟨"t1", 0, 0, "/"⟩], [⟨"t1", 0, 0, "/"⟩]] 1))
    (by decide) rfl
  refine ⟨h.1, ?_⟩
  have h3 := h.2.2.1
  simpa using h3

/-! ### C1: snapshot dispatch -/

/-- C1: with handlers `h1 :: rest` (at least two) registered for topic `t`,
a `publish(t, d)` during which the first handler unregisters itself and
registers a fresh handler `g` still invokes the whole sequence that was
registered at the moment `publish` was entered — `rest` runs in the same
pass — while the registry after the pass binds `t` to `rest ++ [g]`, so only
the next `publish(t, ...)` excludes the unregistered `h1` and includes the
newly registered `g`. -/
theorem C1_snapshot_dispatch {α : Type} (b : Nat → α → Registry → Registry)
    (t : String) (d : α) (s : BusState α) (h1 g : Nat) (rest : List Nat)
    (hreg : lookupA s.reg t = some (h1 :: rest))
    (_hrest : rest ≠ []) (hne : h1 ∉ rest) (hg1 : g ≠ h1)
    (hb1 : b h1 d s.reg = Events.on' t g (Events.off t h1 s.reg))
    (hbrest : ∀ h ∈ rest, ∀ r, b h d r = r) :
    (Events.emit b t d s).trace
        = s.trace ++ (h1 :: rest).map (fun h => (h, d))
    ∧ lookupA (Events.emit b t d s).reg t = some (rest ++ [g])
    ∧ ∀ d' : α,
        (Events.emit (@inert α) t d' (Events.emit b t d s)).trace
          = (Events.emit b t d s).trace ++ (rest ++ [g]).map (fun h => (h, d'))
        ∧ (∀ x : α, (h1, x) ∉ (rest ++ [g]).map (fun h => (h, d')))
        ∧ (g, d') ∈ (rest ++ [g]).map (fun h => (h, d')) := by
  have hemit : Events.emit b t d s
      = (h1 :: rest).foldl
          (fun st h => ⟨b h d st.reg, st.trace ++ [(h, d)]⟩) s := by
    unfold Events.emit
    rw [hreg]
  have hfil : (h1 :: rest).filter (fun x => x ≠ h1) = rest := by
    have hrest' : rest.filter (fun x => x ≠ h1) = rest :=
      List.filter_eq_self.mpr (fun a ha => by
        simp
        exact fun hah => hne (hah ▸ ha))
    simpa using hrest'
  have hreg1 : (Events.emit b t d s).reg
      = Events.on' t g (Events.off t h1 s.reg) := by
    rw [hemit, List.foldl_cons]
    rw [emit_foldl_reg_of_inert b d rest _ hbrest]
    exact hb1
  have hoff : Events.off t h1 s.reg = setA s.reg t rest := by
    unfold Events.off
    rw [hreg]
    show setA s.reg t ((h1 :: rest).filter (fun x => x ≠ h1))
      = setA s.reg t rest
    rw [hfil]
  have hlook : lookupA (Events.emit b t d s).reg t = some (rest ++ [g]) := by
    rw [hreg1, hoff]
    unfold Events.on'
    rw [lookupA_setA_self]
    show lookupA (setA (setA s.reg t rest) t (rest ++ [g])) t
      = some (rest ++ [g])
    rw [setA_setA]
    exact lookupA_setA_self s.reg t _
  refine ⟨?_, hlook, ?_⟩
  · rw [hemit, emit_foldl_trace]
  · intro d'
    refine ⟨?_, ?_, ?_⟩
    · generalize hs2 : Events.emit b t d s = s2 at hlook ⊢
      unfold Events.emit
      rw [hlook, emit_foldl_trace]
    · intro x
      simp
      constructor
      · intro a ha hah _
        exact hne (hah ▸ ha)
      · intro hgg
        exact (hg1 hgg.symm).elim
    · simp

/-- A concrete handler environment for the C1 witness: when invoked,
handler `1` unregisters itself from `"x"` and registers the fresh handler
`3`; every other handler leaves the registry alone. -/
def c1b : Nat → Nat → Registry → Registry := fun h _ r =>
  if h = 1 then Events.on' "x" 3 (Events.off "x" 1 r) else r

/-- Witness for C1 at concrete inputs: topic `"x"` has handlers `[1, 2]`;
publishing `7` lets handler `1` unregister itself and register `3`, yet both
`1` and `2` run in this pass; afterwards `"x"` is bound to `[2, 3]`, and the
next publish invokes `2` and `3` but not `1`. -/
theorem C1_snapshot_dispatch_witness :
    (Events.emit c1b "x" 7 ⟨[("x", [1, 2])], []⟩).trace = [(1, 7), (2, 7)]
    ∧ lookupA (Events.emit c1b "x" 7 ⟨[("x", [1, 2])], []⟩).reg "x"
        = some [2, 3]
    ∧ (Events.emit (@inert Nat) "x" 9
          (Events.emit c1b "x" 7 ⟨[("x", [1, 2])], []⟩)).trace
        = [(1, 7), (2, 7), (2, 9), (3, 9)] := by
  have h := C1_snapshot_dispatch c1b "x" 7 ⟨[("x", [1, 2])], []⟩ 1 3 [2]
    rfl (by decide) (by decide) (by decide) rfl
    (by
      intro x hx r
      rcases List.mem_singleton.mp hx with rfl
      rfl)
  refine ⟨by simpa using h.1, by simpa using h.2.1, ?_⟩
  have h3 := (h.2.2 9).1
  rw [h.1] at h3
  simpa using h3

theorem logAll_append_singleton {α : Type} (rs : List (Rec α)) (r : Rec α)
    (q : List (Rec α)) :
    Analytics.logAll (rs ++ [r]) q
      = Analytics.log r.type r.payload r.timestamp r.url
          (Analytics.logAll rs q) := by
  simp [Analytics.logAll, List.foldl_append]

/-- Folding any call sequence into the initially-empty queue retains exactly
the most recent `MAX_QUEUE` records, in creation order. -/
theorem logAll_eq_drop {α : Type} (rs : List (Rec α)) :
    Analytics.logAll rs []
      = rs.drop (rs.length - Analytics.MAX_QUEUE) := by
  induction rs using List.reverseRecOn with
  | nil => rfl
  | append_singleton rs r ih =>
    rw [logAll_append_singleton, ih]
    by_cases hn : rs.length ≤ 49
    · have h0 : rs.length - Analytics.MAX_QUEUE = 0 := by
        simp [Analytics.MAX_QUEUE]; omega
      have h1 : (rs ++ [r]).length - Analytics.MAX_QUEUE = 0 := by
        simp [Analytics.MAX_QUEUE]; omega
      rw [h0, h1, List.drop_zero, List.drop_zero]
      unfold Analytics.log
      rw [if_neg]
      simp [Analytics.MAX_QUEUE]
      omega
    · have h50 : Analytics.MAX_QUEUE ≤ rs.length := by
        simp [Analytics.MAX_QUEUE]; omega
      have hlen : (rs.drop (rs.length - Analytics.MAX_QUEUE)).length
          = Analytics.MAX_QUEUE := by
        rw [List.length_drop]
        omega
      unfold Analytics.log
      rw [if_pos]
      · rw [← List.drop_append_of_le_length (by omega :
            rs.length - Analytics.MAX_QUEUE ≤ rs.length)]
        rw [List.tail_drop]
        have harith : rs.length - Analytics.MAX_QUEUE + 1
            = (rs ++ [r]).length - Analytics.MAX_QUEUE := by
          simp
          omega
        rw [harith]
      · rw [List.length_append, hlen]
        simp

/-- C6: after every sequence of `record` calls starting from the empty
queue, the queue is exactly the suffix of the call sequence holding the most
recent `MAX_QUEUE = 50` records in creation order (so its length never
exceeds 50), and a single `record` call appends the new record at the tail,
evicting exactly the head record when the length would exceed 50. -/
theorem C6_queue_bound_fifo {α : Type} (rs : List (Rec α)) (t : String)
    (p : α) (ts : Nat) (u : String) (q : List (Rec α)) :
    Analytics.logAll rs [] = rs.drop (rs.length - Analytics.MAX_QUEUE)
    ∧ (Analytics.logAll rs []).length ≤ Analytics.MAX_QUEUE
    ∧ Analytics.log t p ts u q
        = (if q.length + 1 > Analytics.MAX_QUEUE
            then (q ++ [(⟨t, p, ts, u⟩ : Rec α)]).tail
            else q ++ [(⟨t, p, ts, u⟩ : Rec α)]) := by
  refine ⟨logAll_eq_drop rs, ?_, ?_⟩
  · rw [logAll_eq_drop, List.length_drop]
    omega
  · unfold Analytics.log
    simp

/-! ### C2: the 51-call scenario (1 × "t1" then 50 × "t2") -/

/-- The record built by the `i`-th `record` call of the C2 scenario
(0-indexed): call 0 has type `"t1"`, calls 1..50 have type `"t2"`.  The
instants `Date.now()` are strictly increasing across the calls, so the 51
records are pairwise distinct and each queue entry identifies the call that
built it. -/
def c2rec (i : Nat) : Rec Nat :=
  ⟨if i = 0 then "t1" else "t2", 0, i, "/"⟩

/-- The queue left by the C2 scenario: 51 `record` calls against the
initially-empty queue. -/
def c2queue : List (Rec Nat) :=
  Analytics.logAll ((List.range 51).map c2rec) []

set_option maxRecDepth 4000 in
/-- C2 counterexample: the head of the queue left by the scenario is the
record built by the *first* `"t2"` call (the second call overall, timestamp
1), not the record built by the second `"t2"` call (timestamp 2) as the
claim states. -/
theorem C2_head_counterexample :
    c2queue.head? = some (c2rec 1) ∧ c2queue.head? ≠ some (c2rec 2) := by
  constructor
  · decide
  · decide

set_option maxRecDepth 4000 in
/-- C2 amended: the 51 `record` calls — `"t1"` once, then `"t2"` fifty
times — leave a queue of exactly 50 records whose head entry is the record
built by the first `"t2"` call (the second call overall) and whose last
entry is the record built by the 50th `"t2"` call (only the `"t1"` record
is evicted). -/
theorem C2_fifty_one_calls :
    c2queue.length = 50
    ∧ c2queue.head? = some (c2rec 1)
    ∧ c2queue.getLast? = some (c2rec 50)
    ∧ ∀ r ∈ c2queue, r.type = "t2" := by
  refine ⟨by decide, by decide, by decide, by decide⟩
